import Mathlib

/-!
Shallow embedding of the svg-anim-compiler core (repository `website-content`,
directory `src/manim/svg-anim-compiler`), with theorems checking the claims of
its natural-language specification.

Components embedded, in order:
* the virtual-memory bump allocator (`common/include/common/arena.h`),
* the open-addressing identity table (`ctrs/include/ctrs/map.h`),
* the binary frame decoder (`frontends/src/manim_fe.c`),
* the diff/IR driver (`ir/src/gen_ir.c`, `ir/include/ir/ir.h`).

Machine integers are modelled as `Nat` with explicit reduction `% 2^32` or
`% 2^64` wherever the C computation can wrap.  Pointers are modelled as byte
offsets; OS calls (`mmap`, `mprotect`, `malloc`, `aligned_alloc`) are assumed
to succeed except where POSIX makes them fail deterministically (`mmap` with
length 0), since resource exhaustion is outside the logical model.
Uninitialized memory is modelled by explicit junk parameters or `default`.
-/

namespace SvgAnim

def U32 : Nat := 2 ^ 32

def U64 : Nat := 2 ^ 64

/-- C macro `ALIGN_UP(value, alignment)` from `common/defs.h` (also repeated in
`ctrs/map.h`): `((value + (alignment-1)) & ~(alignment-1))`, evaluated here in
`size_t` arithmetic, so the sum reduces mod `2^64`.  Every call site passes a
power-of-two alignment (the OS page size, or an element alignment that the map
header requires to be a power of two); for a power-of-two `a`, masking with
`~(a-1)` clears the low bits, i.e. subtracts `x % a` from `x`, which is the
form used here. -/
def ALIGN_UP64 (value alignment : Nat) : Nat :=
  ((value + (alignment - 1)) % U64) - ((value + (alignment - 1)) % U64) % alignment

/-!
## Arena (`common/include/common/arena.h`)

`base` (the start address of the reserved range) is not represented: all
observable quantities are offsets from it.  `arena_push` returns the offset
`arena->pos` of the block it hands out.
-/

structure arena_t where
  capacity : Nat
  committed : Nat
  pos : Nat
  page_size : Nat
deriving Repr, DecidableEq

/-- `arena_alloc_spec` (arena.h:134-162): round the requested reservation up to
the page size, reserve it with `mmap`, commit the first page with `mprotect`.
POSIX `mmap` fails when the requested length is 0, so a zero rounded capacity
yields the `NULL` return; for a nonzero capacity the reservation is a nonzero
multiple of the page size, the first-page `mprotect` stays inside it, and both
calls are modelled as succeeding (resource exhaustion is outside the model). -/
def arena_alloc_spec (page_size virtual_upper_bound : Nat) : Option arena_t :=
  let capacity := ALIGN_UP64 virtual_upper_bound page_size
  if capacity = 0 then none
  else some { capacity := capacity, committed := page_size, pos := 0, page_size := page_size }

/-- `arena_push` (arena.h:169-188).  `new_pos = pos + size` is a `size_t` sum,
hence taken mod `2^64`.  On success the returned `Nat` is the offset of the
block (the C code returns `base + pos`). -/
def arena_push (arena : arena_t) (size : Nat) : Option (arena_t × Nat) :=
  let new_pos := (arena.pos + size) % U64
  if arena.capacity < new_pos then none
  else
    let committed :=
      if arena.committed < new_pos then ALIGN_UP64 new_pos arena.page_size
      else arena.committed
    some ({ arena with pos := new_pos, committed := committed }, arena.pos)

/-- `arena_pop` (arena.h:190-193): `assert(size <= arena->pos); arena->pos -= size;`.
The assertion is the function's stated precondition; its failure is modelled as
the error result `none`. -/
def arena_pop (arena : arena_t) (size : Nat) : Option arena_t :=
  if size ≤ arena.pos then some { arena with pos := arena.pos - size } else none

/-- `arena_clear` (arena.h:195-197): `arena_pop(arena, arena->pos)`. -/
def arena_clear (arena : arena_t) : Option arena_t :=
  arena_pop arena arena.pos

/-- Modelled from the spec: `arena_set_pos_back` is declared at arena.h:118 but
has no definition anywhere under src/.  Spec section 4.1: `rewindTo(pos)`
restores a previously saved cursor, never releases committed pages, and
"implementers must reject such calls with an error" when `pos` exceeds the
current position. -/
def arena_set_pos_back (arena : arena_t) (pos : Nat) : Option arena_t :=
  if arena.pos < pos then none
  else some { arena with pos := pos }

/-- The arena invariant of spec section 3 (`0 ≤ pos ≤ committed ≤ capacity`,
its first two conjuncts here), strengthened with the bookkeeping facts the
operations maintain and need: the capacity is page-aligned and a `size_t`
value, and the page size is a power of two (as `getpagesize()` returns). -/
def arena_wf (arena : arena_t) : Prop :=
  arena.pos ≤ arena.committed ∧ arena.committed ≤ arena.capacity ∧
  arena.capacity % arena.page_size = 0 ∧ arena.capacity < U64 ∧
  ∃ k, k ≤ 64 ∧ arena.page_size = 2 ^ k

/-!
## Identity table (`ctrs/include/ctrs/map.h`)

The table is a flat array of buckets; the value payload of each bucket is a
single abstract value of type `V` (`element_size`, `element_align` and the
resulting `bucket_stride` only describe the byte layout of that payload and
have no logical effect, so they are not represented).  Uninitialized payloads
are `default`.  C names beginning with an underscore (`_load_ok`,
`_map_hash_u32`, `_map_resize`) are embedded without the underscore.
-/

def MAP_START_SIZE : Nat := 64

def MAP_MAX_LOAD : Nat := 60

def MAP_EMPTY_KEY : Nat := U32 - 1

inductive BucketState where
  | occupied
  | removed
  | empty
deriving Repr, DecidableEq, Inhabited

structure Bucket (V : Type) where
  key : Nat
  state : BucketState
  data : V
deriving Repr, DecidableEq, Inhabited

structure Map (V : Type) where
  size : Nat
  count : Nat
  table : List (Bucket V)
deriving Repr, DecidableEq, Inhabited

/-- `_map_hash_u32` (map.h:226-233), a 32-bit avalanche mix; the two
multiplications wrap mod `2^32`, the xors and shifts cannot overflow. -/
def map_hash_u32 (key : Nat) : Nat :=
  let k1 := key ^^^ (key >>> 16)
  let k2 := k1 * 0x7feb352d % U32
  let k3 := k2 ^^^ (k2 >>> 15)
  let k4 := k3 * 0x846ca68b % U32
  k4 ^^^ (k4 >>> 16)

/-- `_bucket_at` (map.h:217-219): the bucket at index `i`.  Out-of-range access
never happens on the traces proved about; `default` stands for it. -/
def bucketAt [Inhabited V] (m : Map V) (i : Nat) : Bucket V :=
  m.table.getD i default

/-- The probe-index advance `idx = (idx + 1) & (map->size - 1)` used by
`map_put`, `map_get` and `map_remove` (map.h:127,146,172). -/
def nextIdx (m : Map V) (idx : Nat) : Nat :=
  (idx + 1) &&& (m.size - 1)

/-- The initial probe index `hash % map->size` (map.h:103,133,152). -/
def startIdx (m : Map V) (key : Nat) : Nat :=
  map_hash_u32 key % m.size

/-- `_load_ok` (map.h:213-215): `(map->count * 100 / map->size) < MAP_MAX_LOAD`. -/
abbrev load_ok (m : Map V) : Prop :=
  m.count * 100 / m.size < MAP_MAX_LOAD

/-- The probe loop of `map_put` (map.h:102-128).  `rem` counts the remaining
probe steps: the C loop fails after examining a bucket when its counter `i`
has reached `map->size - 1`, so the loop starts with `rem = map->size - 1`
and gives up when `rem` hits 0.  `count` is a `uint32_t`, so its increment
wraps mod `2^32`. -/
def map_put_loop [Inhabited V] (m : Map V) (key : Nat) (elt : V) (idx rem : Nat) :
    Map V × Nat :=
  let b := bucketAt m idx
  if b.state = BucketState.occupied ∧ b.key = key then
    ({ m with table := m.table.set idx { b with data := elt } }, 1)
  else if b.key = MAP_EMPTY_KEY then
    ({ m with
        table := m.table.set idx { key := key, state := BucketState.occupied, data := elt },
        count := (m.count + 1) % U32 }, 1)
  else
    match rem with
    | 0 => (m, 0)
    | rem' + 1 => map_put_loop m key elt (nextIdx m idx) rem'

/-- The re-insertion loop of `_map_resize` (map.h:195-202), parameterized by
the put function it calls (the C code calls `map_put` itself, making the two
functions mutually recursive; `map_putF` below passes its own one-level-
shallower instance here).  The loop aborts with result 0 on the first failed
insertion, keeping the partially rebuilt map, as the C code does. -/
def reinsertWith [Inhabited V] (put : Map V → Nat → V → Option (Map V × Nat)) :
    Map V → List (Bucket V) → Option (Map V × Nat)
  | m, [] => some (m, 1)
  | m, b :: bs =>
    if b.key ≠ MAP_EMPTY_KEY then
      match put m b.key b.data with
      | none => none
      | some (m', r) =>
        if r = 0 then some (m', 0)
        else reinsertWith put m' bs
    else reinsertWith put m bs

/-- `_map_resize` (map.h:176-206): allocate a table of twice the size (a
`size_t` product, mod `2^64`), mark every bucket empty, reset `count`, then
re-insert every old bucket whose key is not `MAP_EMPTY_KEY`. -/
def map_resizeWith [Inhabited V] (put : Map V → Nat → V → Option (Map V × Nat))
    (m : Map V) : Option (Map V × Nat) :=
  let new_size := m.size * 2 % U64
  reinsertWith put
    { size := new_size, count := 0,
      table := List.replicate new_size
        { key := MAP_EMPTY_KEY, state := BucketState.empty, data := default } }
    m.table

/-- `map_put` (map.h:96-129): resize if the load check fails, then run the
probe loop.  `_map_resize` re-inserts through `map_put` itself, so the C
functions are mutually recursive; `fuel` bounds that recursion depth and is
the only thing it controls.  A rebuilt table has `count = 0` and twice the
length, so the load check cannot fail again during re-insertion on any state
whose `count` field is consistent; recursion depth 2 therefore suffices for
every such state (see `map_put`). -/
def map_putF [Inhabited V] : Nat → Map V → Nat → V → Option (Map V × Nat)
  | 0, _, _, _ => none
  | fuel + 1, m, key, elt =>
    if load_ok m then some (map_put_loop m key elt (startIdx m key) (m.size - 1))
    else
      match map_resizeWith (map_putF fuel) m with
      | none => none
      | some (m', r) =>
        if r = 0 then some (m', 0)
        else some (map_put_loop m' key elt (startIdx m' key) (m'.size - 1))

/-- `map_put` at the recursion depth that covers every consistent map state:
one resize triggered by the load check, whose re-insertions run at depth 1 and
never resize again (a rebuilt table starts from `count = 0`).  All theorems
below only traverse states where this fuel is not exhausted. -/
def map_put [Inhabited V] (m : Map V) (key : Nat) (elt : V) : Option (Map V × Nat) :=
  map_putF 2 m key elt

/-- The probe loop of `map_get` (map.h:135-147).  The C loop has no probe
counter and can run forever; `fuel` makes that partiality explicit: `none`
means the loop has not returned within `fuel` probes.  On success the result
is `(1, some value)`; on a miss the C function returns 0 without writing
`*out_element`, modelled as `(0, none)`. -/
def map_get_loop [Inhabited V] (m : Map V) (key : Nat) (idx fuel : Nat) :
    Option (Nat × Option V) :=
  match fuel with
  | 0 => none
  | fuel' + 1 =>
    let b := bucketAt m idx
    if b.key = key then some (1, some b.data)
    else if b.state = BucketState.empty then some (0, none)
    else map_get_loop m key (nextIdx m idx) fuel'

/-- `map_get` (map.h:131-148), with an explicit probe budget `fuel`. -/
def map_get [Inhabited V] (m : Map V) (key : Nat) (fuel : Nat) : Option (Nat × Option V) :=
  map_get_loop m key (startIdx m key) fuel

/-- The probe loop of `map_remove` (map.h:155-173), bounded like `map_put`'s
loop by the counter `i`; the tombstone write sets `key = MAP_EMPTY_KEY` and
`state = MAP_BUCKET_REMOVED` and leaves the payload bytes in place.  `count`
is a `uint32_t`, so its decrement wraps mod `2^32`. -/
def map_remove_loop [Inhabited V] (m : Map V) (key : Nat) (idx rem : Nat) :
    Map V × Nat :=
  let b := bucketAt m idx
  if b.state = BucketState.empty then (m, 0)
  else if b.state = BucketState.occupied ∧ b.key = key then
    ({ m with
        table := m.table.set idx { b with key := MAP_EMPTY_KEY, state := BucketState.removed },
        count := (m.count + (U32 - 1)) % U32 }, 1)
  else
    match rem with
    | 0 => (m, 0)
    | rem' + 1 => map_remove_loop m key (nextIdx m idx) rem'

/-- `map_remove` (map.h:150-174). -/
def map_remove [Inhabited V] (m : Map V) (key : Nat) : Map V × Nat :=
  map_remove_loop m key (startIdx m key) (m.size - 1)

/-- `map_create` (map.h:73-89): a table of `MAP_START_SIZE` buckets, every
bucket marked empty with key `MAP_EMPTY_KEY`; payload bytes are uninitialized
(`default`). -/
def map_create (V : Type) [Inhabited V] : Map V :=
  { size := MAP_START_SIZE, count := 0,
    table := List.replicate MAP_START_SIZE
      { key := MAP_EMPTY_KEY, state := BucketState.empty, data := default } }

/-- Number of Occupied buckets of the table. -/
def occupiedCount (m : Map V) : Nat :=
  m.table.countP (fun b => decide (b.state = BucketState.occupied))

/-- Number of Occupied-or-Tombstone buckets of the table (the numerator of the
load factor in spec sections 3 and 8). -/
def residentCount (m : Map V) : Nat :=
  m.table.countP (fun b => decide (b.state ≠ BucketState.empty))

/-- The index reached after `t` single-step probes from `hash(key) % size`. -/
def probeIdx (m : Map V) (key t : Nat) : Nat :=
  (startIdx m key + t) % m.size

/-!
## Reference associative-array model

Spec section 8 compares the identity table against "a reference
associative-array model".  These three definitions follow the spec's words
(`put` upserts, `get` returns the stored value, `remove` deletes the key) and
are deliberately written from the spec, not from map.h, to serve as the
refinement reference. -/

def refPut (l : List (Nat × V)) (key : Nat) (elt : V) : List (Nat × V) :=
  (key, elt) :: l.filter (fun p => decide (p.1 ≠ key))

def refGet (l : List (Nat × V)) (key : Nat) : Option V :=
  l.lookup key

def refRemove (l : List (Nat × V)) (key : Nat) : List (Nat × V) :=
  l.filter (fun p => decide (p.1 ≠ key))

/-!
## Frame decoder (`frontends/src/manim_fe.c`, layout from `manim_fe.h`)

The input stream is a list of bytes.  `fread(buf, n, 1, fp)` returns 1 and
deposits `n` bytes when the stream has them; otherwise it consumes whatever
remains, returns 0, and leaves the rest of the buffer indeterminate — the
`junk` oracle supplies those indeterminate bytes.  All structs are packed
(`#pragma pack(1)`), so field offsets are the simple byte sums used below;
`float` fields are carried as their raw 32-bit patterns (`read_frame` never
interprets them numerically). -/

def freadBytes (junk : Nat → Nat) (s : List Nat) (n : Nat) :
    List Nat × List Nat × Bool :=
  if n ≤ s.length then (s.take n, s.drop n, true)
  else (s ++ (List.range (n - s.length)).map junk, [], false)

/-- A little-endian `uint32_t` from the first four bytes of a list. -/
def u32le (l : List Nat) : Nat :=
  l.getD 0 0 + 256 * (l.getD 1 0 + 256 * (l.getD 2 0 + 256 * l.getD 3 0))

/-- A little-endian 64-bit pattern (used only to carry `double` fields). -/
def u64le (l : List Nat) : Nat :=
  u32le l + U32 * u32le (l.drop 4)

def MAGIC_CTXT : List Nat := [67, 84, 88, 84]

def MAGIC_FRAM : List Nat := [70, 82, 65, 77]

def MAGIC_VMOB : List Nat := [86, 77, 79, 66]

structure manim_rgba_t where
  magic : List Nat
  vals : List Nat
deriving Repr, DecidableEq, Inhabited

structure manim_quad_t where
  magic : List Nat
  coords : List Nat
deriving Repr, DecidableEq, Inhabited

structure manim_subpath_t where
  magic : List Nat
  x : Nat
  y : Nat
  quad_count : Nat
  quads : List manim_quad_t
deriving Repr, DecidableEq, Inhabited

structure manim_vmo_t where
  magic : List Nat
  id : Nat
  stroke_bg_width : Nat
  stroke_width : Nat
  stroke_bg_rgbas_count : Nat
  stroke_rgbas_count : Nat
  fill_rgbas_count : Nat
  gradient_x0 : Nat
  gradient_y0 : Nat
  gradient_x1 : Nat
  gradient_y1 : Nat
  subpath_count : Nat
  stroke_bg_rgbas : List manim_rgba_t
  stroke_rgbas : List manim_rgba_t
  fill_rgbas : List manim_rgba_t
  subpaths : List manim_subpath_t
deriving Repr, DecidableEq, Inhabited

structure manim_frame_t where
  magic : List Nat
  vmo_count : Nat
  vmos : List manim_vmo_t
deriving Repr, DecidableEq, Inhabited

structure manim_file_header_t where
  magic : List Nat
  version : Nat
  pixel_width : Nat
  pixel_height : Nat
  frame_width : Nat
  frame_height : Nat
deriving Repr, DecidableEq, Inhabited

/-- The color-stop array read `fread(dst, sizeof(manim_rgba_t), count, fp)`
(manim_fe.c:53,59,64): `count` records of 20 bytes each (magic + four floats),
with no check of the return value and no check of any `RGBA` magic. -/
def readRgbas (junk : Nat → Nat) (count : Nat) (s : List Nat) :
    List manim_rgba_t × List Nat :=
  match count with
  | 0 => ([], s)
  | n + 1 =>
    let (bytes, s1, _) := freadBytes junk s 20
    let r : manim_rgba_t :=
      { magic := bytes.take 4,
        vals := [u32le (bytes.drop 4), u32le (bytes.drop 8),
                 u32le (bytes.drop 12), u32le (bytes.drop 16)] }
    let (rest, s2) := readRgbas junk n s1
    (r :: rest, s2)

/-- The segment array read `fread(quads, sizeof(manim_quad_t), count, fp)`
(manim_fe.c:78): `count` records of 28 bytes (magic + six floats), unchecked. -/
def readQuads (junk : Nat → Nat) (count : Nat) (s : List Nat) :
    List manim_quad_t × List Nat :=
  match count with
  | 0 => ([], s)
  | n + 1 =>
    let (bytes, s1, _) := freadBytes junk s 28
    let q : manim_quad_t :=
      { magic := bytes.take 4,
        coords := [u32le (bytes.drop 4), u32le (bytes.drop 8), u32le (bytes.drop 12),
                   u32le (bytes.drop 16), u32le (bytes.drop 20), u32le (bytes.drop 24)] }
    let (rest, s2) := readQuads junk n s1
    (q :: rest, s2)

/-- The subpath loop (manim_fe.c:69-79): a 16-byte prefix read up to
`offsetof(manim_subpath_t, quads)` (magic, x, y, quad_count), then the quads;
neither the prefix fread's return value nor the `SUBP` magic is checked. -/
def readSubpaths (junk : Nat → Nat) (count : Nat) (s : List Nat) :
    List manim_subpath_t × List Nat :=
  match count with
  | 0 => ([], s)
  | n + 1 =>
    let (pre, s1, _) := freadBytes junk s 16
    let qc := u32le (pre.drop 12)
    let (quads, s2) := readQuads junk qc s1
    let sp : manim_subpath_t :=
      { magic := pre.take 4, x := u32le (pre.drop 4), y := u32le (pre.drop 8),
        quad_count := qc, quads := quads }
    let (rest, s3) := readSubpaths junk n s2
    (sp :: rest, s3)

/-- The object loop (manim_fe.c:44-80): a 48-byte prefix read up to
`offsetof(manim_vmo_t, stroke_bg_rgbas)` — magic at offset 0, id at 4, widths
at 8/12, stop counts at 16/20/24, gradient anchors at 28..40, subpath count at
44 — then the three stop arrays and the subpaths.  No fread return value and
no `VMOB` magic is checked. -/
def readVmos (junk : Nat → Nat) (count : Nat) (s : List Nat) :
    List manim_vmo_t × List Nat :=
  match count with
  | 0 => ([], s)
  | n + 1 =>
    let (pre, s1, _) := freadBytes junk s 48
    let bgc := u32le (pre.drop 16)
    let stc := u32le (pre.drop 20)
    let flc := u32le (pre.drop 24)
    let spc := u32le (pre.drop 44)
    let (bg, s2) := readRgbas junk bgc s1
    let (st, s3) := readRgbas junk stc s2
    let (fl, s4) := readRgbas junk flc s3
    let (sps, s5) := readSubpaths junk spc s4
    let vmo : manim_vmo_t :=
      { magic := pre.take 4, id := u32le (pre.drop 4),
        stroke_bg_width := u32le (pre.drop 8), stroke_width := u32le (pre.drop 12),
        stroke_bg_rgbas_count := bgc, stroke_rgbas_count := stc, fill_rgbas_count := flc,
        gradient_x0 := u32le (pre.drop 28), gradient_y0 := u32le (pre.drop 32),
        gradient_x1 := u32le (pre.drop 36), gradient_y1 := u32le (pre.drop 40),
        subpath_count := spc,
        stroke_bg_rgbas := bg, stroke_rgbas := st, fill_rgbas := fl, subpaths := sps }
    let (rest, s6) := readVmos junk n s5
    (vmo :: rest, s6)

structure FrameReadResult where
  ret : Nat
  rest : List Nat
  frame : manim_frame_t
deriving Repr, DecidableEq, Inhabited

/-- `read_frame` (manim_fe.c:31-83).  It reads the 4-byte frame magic
(return value unchecked; on a short read the compared bytes are
indeterminate, supplied by `junk` here) and returns 0 on mismatch; then reads
`vmo_count`, returning 0 if that fread does not complete; then reads
`vmo_count` objects with no further checks of any kind and returns 1.  The
`frame` component on the failure paths carries what has been read so far
(further struct fields are stale memory, not observed by any caller). -/
def read_frame (junk : Nat → Nat) (s : List Nat) : FrameReadResult :=
  let (magic, s1, _) := freadBytes junk s 4
  if magic ≠ MAGIC_FRAM then
    { ret := 0, rest := s1, frame := { magic := magic, vmo_count := 0, vmos := [] } }
  else
    let (cntB, s2, ok) := freadBytes junk s1 4
    if ¬ ok then
      { ret := 0, rest := s2, frame := { magic := magic, vmo_count := 0, vmos := [] } }
    else
      let cnt := u32le cntB
      let (vmos, s3) := readVmos junk cnt s2
      { ret := 1, rest := s3, frame := { magic := magic, vmo_count := cnt, vmos := vmos } }

structure HeaderReadResult where
  ret : Nat
  rest : List Nat
  header : manim_file_header_t
deriving Repr, DecidableEq, Inhabited

/-- `read_header` (manim_fe.c:20-29): one unchecked fread of the whole
40-byte packed header struct, then a comparison of its magic against `CTXT`. -/
def read_header (junk : Nat → Nat) (s : List Nat) : HeaderReadResult :=
  let (bytes, s1, _) := freadBytes junk s 40
  let hdr : manim_file_header_t :=
    { magic := bytes.take 4, version := u32le (bytes.drop 4),
      pixel_width := u64le (bytes.drop 8), pixel_height := u64le (bytes.drop 16),
      frame_width := u64le (bytes.drop 24), frame_height := u64le (bytes.drop 32) }
  if hdr.magic ≠ MAGIC_CTXT then { ret := 0, rest := s1, header := hdr }
  else { ret := 1, rest := s1, header := hdr }

/-!
## IR operations (`ir/include/ir/ir.h`) and the diff/IR driver (`ir/src/gen_ir.c`)
-/

inductive shape_type_e where
  | PATH
  | CIRCLE
  | ELLIPSE
  | RECT
deriving Repr, DecidableEq, Inhabited

/-- `ir_opcode_e` (ir.h:142-146).  The enum has exactly these three members;
in particular no member corresponds to the `NOP_FRAME` tag that the design
comment at the top of ir.h describes. -/
inductive ir_opcode_e where
  | IR_OP_INS
  | IR_OP_DEL
  | IR_OP_SET_ATTR
deriving Repr, DecidableEq, Inhabited

/-- `ir_op_t` (ir.h:163-171): the opcode-discriminated union, embedded as a
tagged variant.  The `SET_ATTR` attribute enum and value string are carried
as a `Nat` index into `attribute_type_e` and the raw bytes. -/
inductive ir_op_t where
  | ins (element_id : Nat) (shape_type : shape_type_e)
  | del (element_id : Nat)
  | set_attr (element_id : Nat) (attribute_type : Nat) (attribute_value_str : List Nat)
deriving Repr, DecidableEq

/-- `SvgAnimStatus` (common/core.h:16-20). -/
inductive SvgAnimStatus where
  | SVG_ANIM_STATUS_SUCCESS
  | SVG_ANIM_STATUS_NO_MEMORY
  | SVG_ANIM_STATUS_MALFORMED_SVG
deriving Repr, DecidableEq, Inhabited

/-- `gen_path_ir` (gen_ir.c:54-69): its entire body is commented out; it
reads nothing, writes nothing to any arena, and produces no IR operations. -/
def gen_path_ir (svg_path : List Nat) : List ir_op_t :=
  let _ := svg_path
  []

/-- A byte of the svg blob: in range it is the record's byte; out of range
(the `memcpy` at gen_ir.c:109-112 can read past the record's end) it is
whatever the surrounding blob arena holds, supplied by `junk`. -/
def blobByte (junk : Nat → Nat) (blob : List Nat) (i : Nat) : Nat :=
  match blob.get? i with
  | some b => b
  | none => junk i

/-- The per-record scan loop of `gen_ir_driver` (gen_ir.c:99-130): walk the
blob; outside a run, start tracking at a `<` byte (60) whose successor is `p`
(112) or `P` (80); inside a run, count bytes and, at a `>` byte (62), copy
`curr_path_len` bytes starting at the CLOSING byte's own index `j` (as the C
code does — not at the start of the run), null-terminate the copy into the
scratch arena, hand it to `gen_path_ir`, and resume scanning.  Returns the
scratch copies and the concatenated IR output. -/
def scanGo (junk : Nat → Nat) (blob : List Nat) :
    Nat → Nat → Bool → Nat → List (List Nat) × List ir_op_t
  | 0, _, _, _ => ([], [])
  | steps + 1, j, tracking, curr =>
    if j < blob.length then
      if tracking then
        let curr' := curr + 1
        if blobByte junk blob j = 62 then
          let dest := ((List.range curr').map (fun t => blobByte junk blob (j + t))) ++ [0]
          (dest :: (scanGo junk blob steps (j + 1) false 0).1,
            gen_path_ir dest ++ (scanGo junk blob steps (j + 1) false 0).2)
        else scanGo junk blob steps (j + 1) true curr'
      else
        if j + 1 < blob.length ∧ blobByte junk blob j = 60 ∧
            (blobByte junk blob (j + 1) = 112 ∨ blobByte junk blob (j + 1) = 80) then
          scanGo junk blob steps (j + 1) true (curr + 1)
        else scanGo junk blob steps (j + 1) false curr
    else ([], [])

/-- The scan of one whole record: the loop above entered at `j = 0` with
tracking off.  `steps = blob.length` is exactly the number of iterations of
the C `for` loop, so the step budget of `scanGo` never runs out. -/
def scanRecord (junk : Nat → Nat) (blob : List Nat) : List (List Nat) × List ir_op_t :=
  scanGo junk blob blob.length 0 false 0

structure GenIrResult where
  status : SvgAnimStatus
  ir_ops : List ir_op_t
  path_copies : List (List Nat)
deriving Repr, DecidableEq

/-- `gen_ir_driver` (gen_ir.c:71-134).  Frames are the decoded svg records
(each the byte list `svg_get_data` exposes).  The driver scans each record,
pushes the extracted path copies into a scratch arena, and calls
`gen_path_ir` on each; it never pushes anything to `ir_arena`, never assigns
`*ir_op_frames`, and always returns `SVG_ANIM_STATUS_SUCCESS`.  `ir_ops` is
the complete stream of IR operations emitted across the run. -/
def gen_ir_driver (junk : Nat → Nat) (svg_frames : List (List Nat)) : GenIrResult :=
  let step := fun (acc : List (List Nat) × List ir_op_t) (blob : List Nat) =>
    (acc.1 ++ (scanRecord junk blob).1, acc.2 ++ (scanRecord junk blob).2)
  let acc := svg_frames.foldl step ([], [])
  { status := SvgAnimStatus.SVG_ANIM_STATUS_SUCCESS, ir_ops := acc.2, path_copies := acc.1 }

/-!
# Helper lemmas
-/

lemma sub_mod_eq_mul_div (x a : Nat) : x - x % a = a * (x / a) := by
  have h := Nat.div_add_mod x a
  omega

/-- Rounding up to a page multiple stays between the value and any aligned
bound above it, provided the bound fits `size_t` (so the `size_t` sum inside
the macro does not wrap). -/
lemma ALIGN_UP64_spec (x a c : Nat) (ha : 0 < a) (hUa : U64 % a = 0)
    (hc : c % a = 0) (hcU : c < U64) (hx : x ≤ c) :
    x ≤ ALIGN_UP64 x a ∧ ALIGN_UP64 x a ≤ c ∧ ALIGN_UP64 x a % a = 0 := by
  have hcm : a * (c / a) = c := by
    have := Nat.div_add_mod c a
    omega
  have hUm : a * (U64 / a) = U64 := by
    have := Nat.div_add_mod U64 a
    omega
  have hca : c + a ≤ U64 := by
    have hlt : c / a < U64 / a := by
      by_contra hge
      have : a * (U64 / a) ≤ a * (c / a) := Nat.mul_le_mul_left a (by omega)
      omega
    calc c + a = a * (c / a + 1) := by rw [Nat.mul_add]; omega
    _ ≤ a * (U64 / a) := Nat.mul_le_mul_left a (by omega)
    _ = U64 := hUm
  have hy : x + (a - 1) < U64 := by omega
  unfold ALIGN_UP64
  rw [Nat.mod_eq_of_lt hy, sub_mod_eq_mul_div]
  have h1 := Nat.div_add_mod (x + (a - 1)) a
  have h2 : (x + (a - 1)) % a < a := Nat.mod_lt _ ha
  refine ⟨by omega, ?_, Nat.mul_mod_right a _⟩
  have hdiv : (x + (a - 1)) / a ≤ c / a := by
    have hle : x + (a - 1) ≤ a * (c / a) + (a - 1) := by omega
    have hstep : (x + (a - 1)) / a ≤ (a * (c / a) + (a - 1)) / a :=
      Nat.div_le_div_right hle
    have heq : (a * (c / a) + (a - 1)) / a = c / a := by
      rw [Nat.mul_add_div ha]
      have hz : (a - 1) / a = 0 := Nat.div_eq_of_lt (by omega)
      omega
    omega
  calc a * ((x + (a - 1)) / a) ≤ a * (c / a) := Nat.mul_le_mul_left a hdiv
  _ = c := hcm

/-!
# Claim C6
-/

/-- A well-formed arena mid-run: an 8 GB reservation, one committed page,
100 bytes in use. -/
def c6Arena : arena_t :=
  { capacity := 8 * 2 ^ 30, committed := 4096, pos := 100, page_size := 4096 }

/-- Claim C6: the claim states that whenever `position + n` would exceed the
reserved capacity, `arena_push` fails and leaves the arena unchanged.  The C
code computes `new_pos = pos + size` in `size_t`, so a huge request wraps:
here `pos = 100` and `n = 2^64 - 50` give `new_pos = 50`, the capacity test
passes, and the push SUCCEEDS, moving `pos` backwards to 50 — even though
`pos + n` mathematically dwarfs the 8 GB capacity.  This contradicts both the
spec ("fails without side effects") and the function's own documentation
("NULL if out of space"), so the claim is recorded as a code bug at this
input. -/
theorem c6_arena_push_overflow_wraps :
    arena_wf c6Arena ∧
    c6Arena.capacity < c6Arena.pos + (U64 - 50) ∧
    arena_push c6Arena (U64 - 50) = some ({ c6Arena with pos := 50 }, 100) := by
  refine ⟨⟨by norm_num [c6Arena], by norm_num [c6Arena], by norm_num [c6Arena],
    by norm_num [c6Arena, U64], 12, by norm_num, by norm_num [c6Arena]⟩, ?_, ?_⟩
  · norm_num [c6Arena, U64]
  · rfl

/-!
# Claim C7
-/

/-- A well-formed arena whose position makes the `size_t` wrap of
`arena_push` observable with round numbers. -/
def c7Arena : arena_t :=
  { capacity := 8 * 2 ^ 30, committed := 4096, pos := 4000, page_size := 4096 }

/-- Claim C7, counterexample to the contiguity/monotonicity clause: from a
well-formed arena at position 4000, a push of `2^64 - 1000` bytes succeeds
(the `size_t` sum wraps to 3000) and returns the block offset 4000; the next
push of 16 bytes returns offset 3000.  The second successful allocation is
neither contiguous with the first (3000 is not 4000 + n1) nor at a higher
position, refuting the claim as stated. -/
theorem c7_counterexample_offsets_not_monotone :
    arena_wf c7Arena ∧
    arena_push c7Arena (U64 - 1000) = some ({ c7Arena with pos := 3000 }, 4000) ∧
    arena_push { c7Arena with pos := 3000 } 16 =
      some ({ c7Arena with pos := 3016 }, 3000) ∧
    3000 < 4000 := by
  refine ⟨⟨by norm_num [c7Arena], by norm_num [c7Arena], by norm_num [c7Arena],
    by norm_num [c7Arena, U64], 12, by norm_num, by norm_num [c7Arena]⟩, rfl, rfl, by norm_num⟩

/-- Claim C7 (amended): every arena operation — creation by
`arena_alloc_spec` for any requested size, `arena_push`, `arena_pop`,
`arena_clear` — preserves `0 ≤ pos ≤ committed ≤ capacity` (the `arena_wf`
invariant), and two successive successful `arena_push` calls return
contiguous blocks at monotonically increasing positions PROVIDED the first
`pos + n` sum does not wrap `size_t`; the counterexample above shows the
unamended contiguity clause fails when it wraps. -/
theorem c7_arena_invariant_and_contiguity :
    (∀ page vub k arena, page = 2 ^ k → arena_alloc_spec page vub = some arena →
        arena.pos = 0 ∧ arena_wf arena) ∧
    (∀ arena n arena' off, arena_wf arena →
        arena_push arena n = some (arena', off) → arena_wf arena') ∧
    (∀ arena n arena', arena_wf arena →
        arena_pop arena n = some arena' → arena_wf arena') ∧
    (∀ arena arena', arena_wf arena →
        arena_clear arena = some arena' → arena_wf arena') ∧
    (∀ arena n1 n2 a1 a2 off1 off2, arena_wf arena → arena.pos + n1 < U64 →
        arena_push arena n1 = some (a1, off1) →
        arena_push a1 n2 = some (a2, off2) →
        off2 = off1 + n1 ∧ off1 ≤ off2) := by
  have hU : ∀ k : Nat, k ≤ 64 → U64 % 2 ^ k = 0 := by
    intro k hk
    obtain ⟨c, hc⟩ := pow_dvd_pow 2 hk
    have h2 : U64 = 2 ^ k * c := by rw [show U64 = 2 ^ 64 from rfl, hc]
    rw [h2]
    exact Nat.mul_mod_right _ _
  refine ⟨?_, ?_, ?_, ?_, ?_⟩
  · -- creation
    intro page vub k arena hpage halloc
    simp only [arena_alloc_spec] at halloc
    by_cases hz : ALIGN_UP64 vub page = 0
    · rw [if_pos hz] at halloc
      exact absurd halloc (by simp)
    · rw [if_neg hz] at halloc
      have harena : arena =
          { capacity := ALIGN_UP64 vub page, committed := page, pos := 0, page_size := page } :=
        (Option.some.inj halloc).symm
      subst harena
      have hpagepos : 0 < page := by rw [hpage]; exact pow_pos (by norm_num) k
      have hk64 : k ≤ 64 := by
        by_contra hgt
        have hbig : U64 < page := by
          rw [hpage, show U64 = 2 ^ 64 from rfl]
          exact Nat.pow_lt_pow_right (by norm_num) (by omega)
        have hxlt : (vub + (page - 1)) % U64 < page :=
          lt_trans (Nat.mod_lt _ (by norm_num [U64])) hbig
        have hXp : (vub + (page - 1)) % U64 % page = (vub + (page - 1)) % U64 :=
          Nat.mod_eq_of_lt hxlt
        have : ALIGN_UP64 vub page = 0 := by
          unfold ALIGN_UP64
          omega
        exact hz this
      have hmod : ALIGN_UP64 vub page % page = 0 := by
        unfold ALIGN_UP64
        rw [sub_mod_eq_mul_div]
        exact Nat.mul_mod_right page _
      have hlt : ALIGN_UP64 vub page < U64 := by
        unfold ALIGN_UP64
        have := Nat.mod_lt (vub + (page - 1)) (show 0 < U64 by norm_num [U64])
        omega
      have hge : page ≤ ALIGN_UP64 vub page := by
        have hdm := Nat.div_add_mod (ALIGN_UP64 vub page) page
        rcases Nat.eq_zero_or_pos (ALIGN_UP64 vub page / page) with h0 | hpos
        · rw [h0, Nat.mul_zero] at hdm
          exact absurd (by omega) hz
        · have hmul : page * 1 ≤ page * (ALIGN_UP64 vub page / page) :=
            Nat.mul_le_mul_left page hpos
          omega
      exact ⟨rfl, Nat.zero_le _, hge, hmod, hlt, k, hk64, hpage⟩
  · -- push preserves the invariant
    intro arena n arena' off hwf hpush
    obtain ⟨hpc, hcc, hal, hcap, k, hk, hpage⟩ := hwf
    simp only [arena_push] at hpush
    by_cases hover : arena.capacity < (arena.pos + n) % U64
    · rw [if_pos hover] at hpush
      exact absurd hpush (by simp)
    · rw [if_neg hover] at hpush
      simp only [Option.some.injEq, Prod.mk.injEq] at hpush
      obtain ⟨h1, hoff⟩ := hpush
      subst h1
      have hpagepos : 0 < arena.page_size := by
        rw [hpage]; exact pow_pos (by norm_num) k
      by_cases hcommit : arena.committed < (arena.pos + n) % U64
      · have hspec := ALIGN_UP64_spec ((arena.pos + n) % U64) arena.page_size
          arena.capacity hpagepos (by rw [hpage]; exact hU k hk) hal hcap (by omega)
        rw [if_pos hcommit]
        exact ⟨hspec.1, hspec.2.1, hal, hcap, k, hk, hpage⟩
      · rw [if_neg hcommit]
        exact ⟨by dsimp only; omega, hcc, hal, hcap, k, hk, hpage⟩
  · -- pop preserves the invariant
    intro arena n arena' hwf hpop
    obtain ⟨hpc, hcc, hal, hcap, k, hk, hpage⟩ := hwf
    simp only [arena_pop] at hpop
    by_cases hle : n ≤ arena.pos
    · rw [if_pos hle] at hpop
      have h1 : arena' = { arena with pos := arena.pos - n } := (Option.some.inj hpop).symm
      subst h1
      exact ⟨by dsimp only; omega, hcc, hal, hcap, k, hk, hpage⟩
    · rw [if_neg hle] at hpop
      exact absurd hpop (by simp)
  · -- clear preserves the invariant
    intro arena arena' hwf hclear
    obtain ⟨hpc, hcc, hal, hcap, k, hk, hpage⟩ := hwf
    simp only [arena_clear, arena_pop] at hclear
    rw [if_pos (Nat.le_refl _)] at hclear
    have h1 : arena' = { arena with pos := arena.pos - arena.pos } := (Option.some.inj hclear).symm
    subst h1
    exact ⟨by dsimp only; omega, hcc, hal, hcap, k, hk, hpage⟩
  · -- contiguity without size_t wrap
    intro arena n1 n2 a1 a2 off1 off2 hwf hnw hpush1 hpush2
    simp only [arena_push] at hpush1 hpush2
    have hnp1 : (arena.pos + n1) % U64 = arena.pos + n1 := Nat.mod_eq_of_lt hnw
    rw [hnp1] at hpush1
    by_cases hover : arena.capacity < arena.pos + n1
    · rw [if_pos hover] at hpush1
      exact absurd hpush1 (by simp)
    · rw [if_neg hover] at hpush1
      simp only [Option.some.injEq, Prod.mk.injEq] at hpush1
      obtain ⟨h1, hoff1⟩ := hpush1
      have ha1pos : a1.pos = arena.pos + n1 := by rw [← h1]
      by_cases hover2 : a1.capacity < (a1.pos + n2) % U64
      · rw [if_pos hover2] at hpush2
        exact absurd hpush2 (by simp)
      · rw [if_neg hover2] at hpush2
        simp only [Option.some.injEq, Prod.mk.injEq] at hpush2
        obtain ⟨h2, hoff2⟩ := hpush2
        omega

/-- Claim C7 witness: the push clause of the amended theorem applied to a
concrete well-formed arena and a concrete 257-byte push, and the contiguity
clause applied to two concrete pushes of 100 and 57 bytes. -/
theorem c7_arena_invariant_witness :
    arena_wf { capacity := 8 * 2 ^ 30, committed := 4096, pos := 257, page_size := 4096 } ∧
    (100 : Nat) = 0 + 100 := by
  constructor
  · exact c7_arena_invariant_and_contiguity.2.1
      { capacity := 8 * 2 ^ 30, committed := 4096, pos := 0, page_size := 4096 } 257
      { capacity := 8 * 2 ^ 30, committed := 4096, pos := 257, page_size := 4096 } 0
      ⟨by norm_num, by norm_num, by norm_num, by norm_num [U64], 12, by norm_num, by norm_num⟩
      rfl
  · exact (c7_arena_invariant_and_contiguity.2.2.2.2
      { capacity := 8 * 2 ^ 30, committed := 4096, pos := 0, page_size := 4096 } 100 57
      { capacity := 8 * 2 ^ 30, committed := 4096, pos := 100, page_size := 4096 }
      { capacity := 8 * 2 ^ 30, committed := 4096, pos := 157, page_size := 4096 } 0 100
      ⟨by norm_num, by norm_num, by norm_num, by norm_num [U64], 12, by norm_num, by norm_num⟩
      (by norm_num [U64]) rfl rfl).1.symm

/-!
# Claim C8
-/

/-- Claim C8: a rewind request restoring a position greater than the current
position is rejected with an error (`arena_set_pos_back` — modelled from the
spec, since only its declaration exists under src/ — and `arena_pop`, whose
assert rejects popping more bytes than are in use), and no successful rewind
changes the committed-byte count. -/
theorem c8_rewind_rejected_and_commit_kept :
    (∀ arena pos, arena.pos < pos → arena_set_pos_back arena pos = none) ∧
    (∀ arena pos arena', arena_set_pos_back arena pos = some arena' →
        arena'.committed = arena.committed ∧ arena'.pos = pos) ∧
    (∀ arena n, arena.pos < n → arena_pop arena n = none) ∧
    (∀ arena n arena', arena_pop arena n = some arena' →
        arena'.committed = arena.committed) := by
  refine ⟨?_, ?_, ?_, ?_⟩
  · intro arena pos h
    simp [arena_set_pos_back, h]
  · intro arena pos arena' h
    simp only [arena_set_pos_back] at h
    by_cases hlt : arena.pos < pos
    · rw [if_pos hlt] at h
      exact absurd h (by simp)
    · rw [if_neg hlt] at h
      have heq : arena' = { arena with pos := pos } := (Option.some.inj h).symm
      subst heq
      exact ⟨rfl, rfl⟩
  · intro arena n h
    simp [arena_pop, show ¬ n ≤ arena.pos by omega]
  · intro arena n arena' h
    simp only [arena_pop] at h
    by_cases hle : n ≤ arena.pos
    · rw [if_pos hle] at h
      have heq : arena' = { arena with pos := arena.pos - n } := (Option.some.inj h).symm
      subst heq
      rfl
    · rw [if_neg hle] at h
      exact absurd h (by simp)

/-- Claim C8 witness: the rejection clause at a concrete arena with
`pos = 10` and a rewind target 11, and the commit-preservation clause at a
concrete rewind from 10 back to 5. -/
theorem c8_rewind_witness :
    arena_set_pos_back
      { capacity := 2 ^ 33, committed := 4096, pos := 10, page_size := 4096 } 11 = none ∧
    ({ capacity := 2 ^ 33, committed := 4096, pos := 5, page_size := 4096 } : arena_t).committed
      = ({ capacity := 2 ^ 33, committed := 4096, pos := 10, page_size := 4096 } : arena_t).committed := by
  constructor
  · exact c8_rewind_rejected_and_commit_kept.1
      { capacity := 2 ^ 33, committed := 4096, pos := 10, page_size := 4096 } 11 (by norm_num)
  · exact (c8_rewind_rejected_and_commit_kept.2.1
      { capacity := 2 ^ 33, committed := 4096, pos := 10, page_size := 4096 } 5
      { capacity := 2 ^ 33, committed := 4096, pos := 5, page_size := 4096 } rfl).1

/-!
# Claim C2
-/

/-- A byte stream whose frame magic is valid but whose object magic is
corrupted (`XMOB` instead of `VMOB`): `FRAM`, object count 1, then a full
48-byte object prefix (id 7, all stop counts and the subpath count zero). -/
def c2Stream : List Nat :=
  MAGIC_FRAM ++ [1, 0, 0, 0] ++ ([88, 77, 79, 66] ++ [7, 0, 0, 0] ++ List.replicate 40 0)

/-- Claim C2, counterexample: on `c2Stream` the decoder consumes the whole
corrupted object and reports success (`ret = 1`), storing the mismatched
magic bytes verbatim in the decoded record; no malformed-input error is
raised for a magic mismatch below frame level. -/
theorem c2_counterexample_inner_magic_unchecked :
    (read_frame (fun _ => 0) c2Stream).ret = 1 ∧
    (read_frame (fun _ => 0) c2Stream).rest = [] ∧
    ((read_frame (fun _ => 0) c2Stream).frame.vmos.getD 0 default).magic ≠ MAGIC_VMOB := by
  refine ⟨rfl, rfl, by decide⟩

/-- Claim C2 (amended): the decoder validates only the header-level and
frame-level magics.  A frame-magic mismatch makes `read_frame` fail with
return 0 having consumed exactly the four magic bytes and nothing further,
and a header-magic mismatch makes `read_header` fail having consumed exactly
its 40-byte record; the inner magics (`VMOB`, `RGBA`, `SUBP`, `QUAD`) are
read as payload but never compared, and end-of-stream is detected only by
the `vmo_count` read (counterexample above). -/
theorem c2_read_frame_magic_mismatch_aborts :
    (∀ junk s, 4 ≤ s.length → s.take 4 ≠ MAGIC_FRAM →
        (read_frame junk s).ret = 0 ∧ (read_frame junk s).rest = s.drop 4) ∧
    (∀ junk s, 40 ≤ s.length → s.take 4 ≠ MAGIC_CTXT →
        (read_header junk s).ret = 0 ∧ (read_header junk s).rest = s.drop 40) := by
  constructor
  · intro junk s hlen hmagic
    have hread : freadBytes junk s 4 = (s.take 4, s.drop 4, true) := by
      simp [freadBytes, hlen]
    simp [read_frame, hread, hmagic]
  · intro junk s hlen hmagic
    have hread : freadBytes junk s 40 = (s.take 40, s.drop 40, true) := by
      simp [freadBytes, hlen]
    have htake : (s.take 40).take 4 = s.take 4 := by
      rw [List.take_take]
      norm_num
    simp [read_header, hread, htake, hmagic]

/-- Claim C2 witness: the amended theorem applied to two concrete all-zero
streams, whose leading four bytes match neither `FRAM` nor `CTXT`. -/
theorem c2_read_frame_witness :
    (read_frame (fun _ => 0) [0, 0, 0, 0, 9]).ret = 0 ∧
    (read_header (fun _ => 0) (List.replicate 40 0)).ret = 0 := by
  constructor
  · exact (c2_read_frame_magic_mismatch_aborts.1 (fun _ => 0) [0, 0, 0, 0, 9]
      (by norm_num) (by decide)).1
  · exact (c2_read_frame_magic_mismatch_aborts.2 (fun _ => 0) (List.replicate 40 0)
      (by simp) (by decide)).1

/-!
# Claim C4
-/

/-- A one-frame driver input whose svg text holds no path object (just an
`<svg>` open tag), so the diff steps produce zero operations for the frame. -/
def c4Frames : List (List Nat) := [[60, 115, 118, 103, 62]]

/-- Claim C4 (code-bug evaluation): for a frame producing zero operations the
compiler emits NO `NOP_FRAME` marker — it emits nothing at all, for any
frame.  `ir_opcode_e` has no `NOP_FRAME` member (only INS, DEL and SET_ATTR,
despite the design comment atop ir.h listing `NOP_FRAME`), `gen_path_ir`'s
body is commented out, and `gen_ir_driver` never writes an op to `ir_arena`;
the run still reports success. -/
theorem c4_no_nop_frame_emitted :
    gen_ir_driver (fun _ => 0) c4Frames =
      { status := SvgAnimStatus.SVG_ANIM_STATUS_SUCCESS, ir_ops := [],
        path_copies := [] } := by
  rfl

/-!
# Claim C5
-/

lemma scanGo_ops_nil (junk : Nat → Nat) (blob : List Nat) :
    ∀ steps j tracking curr, (scanGo junk blob steps j tracking curr).2 = [] := by
  intro steps
  induction steps with
  | zero => intro j tracking curr; rfl
  | succ n ih =>
    intro j tracking curr
    simp only [scanGo, gen_path_ir]
    split_ifs <;> simp [ih]

lemma gen_ir_driver_ops_nil (junk : Nat → Nat) (svg_frames : List (List Nat)) :
    (gen_ir_driver junk svg_frames).ir_ops = [] := by
  simp only [gen_ir_driver]
  suffices h : ∀ (fs : List (List Nat)) (acc : List (List Nat) × List ir_op_t),
      acc.2 = [] →
      (fs.foldl (fun acc blob =>
        (acc.1 ++ (scanRecord junk blob).1, acc.2 ++ (scanRecord junk blob).2)) acc).2 = [] by
    exact h svg_frames ([], []) rfl
  intro fs
  induction fs with
  | nil => intro acc hacc; simpa using hacc
  | cons blob rest ih =>
    intro acc hacc
    apply ih
    simp [hacc, scanRecord, scanGo_ops_nil]

/-- Claim C5: diff determinism.  Two runs of `gen_ir_driver` over the same
frame sequence produce the same status and byte-identical IR operation
streams, whatever the contents of uninitialized scratch memory (`junk1`,
`junk2`) in either run — indeed the stream is empty in every run, since the
driver's emission path is an unimplemented stub.  (The scratch-arena path
copies DO depend on the junk memory, so the quantification is not vacuous.) -/
theorem c5_gen_ir_driver_deterministic :
    ∀ (svg_frames : List (List Nat)) (junk1 junk2 : Nat → Nat),
      (gen_ir_driver junk1 svg_frames).ir_ops = (gen_ir_driver junk2 svg_frames).ir_ops ∧
      (gen_ir_driver junk1 svg_frames).status = (gen_ir_driver junk2 svg_frames).status := by
  intro svg_frames junk1 junk2
  rw [gen_ir_driver_ops_nil, gen_ir_driver_ops_nil]
  exact ⟨rfl, rfl⟩

/-!
# Probe-sequence helper lemmas for the identity table
-/

/-- On a power-of-two table the masked advance is the modular successor. -/
lemma nextIdx_eq_mod (m : Map V) (e idx : Nat) (hsz : m.size = 2 ^ e) :
    nextIdx m idx = (idx + 1) % m.size := by
  unfold nextIdx
  rw [hsz]
  exact Nat.and_pow_two_sub_one_eq_mod (idx + 1) e

lemma probeIdx_lt (m : Map V) (key t : Nat) (hsz : 0 < m.size) :
    probeIdx m key t < m.size :=
  Nat.mod_lt _ hsz

lemma startIdx_lt (m : Map V) (key : Nat) (hsz : 0 < m.size) :
    startIdx m key < m.size :=
  Nat.mod_lt _ hsz

lemma probeIdx_zero (m : Map V) (key : Nat) (hsz : 0 < m.size) :
    probeIdx m key 0 = startIdx m key := by
  unfold probeIdx
  rw [Nat.add_zero]
  exact Nat.mod_eq_of_lt (startIdx_lt m key hsz)

lemma probeIdx_succ (m : Map V) (key t : Nat) :
    probeIdx m key (t + 1) = (probeIdx m key t + 1) % m.size := by
  unfold probeIdx
  rw [Nat.mod_add_mod, Nat.add_assoc]

lemma bucketAt_mem [Inhabited V] (m : Map V) (i : Nat) (hlen : m.table.length = m.size)
    (hi : i < m.size) : bucketAt m i ∈ m.table := by
  unfold bucketAt
  rw [List.getD_eq_get m.table default (by omega)]
  exact List.get_mem m.table i (by omega)

/-- Updating one list entry changes a `countP` by at most one. -/
lemma countP_set_le (p : α → Bool) (l : List α) (i : Nat) (x : α) :
    (l.set i x).countP p ≤ l.countP p + 1 := by
  induction l generalizing i with
  | nil => simp
  | cons a l ih =>
    cases i with
    | zero =>
      simp only [List.set, List.countP_cons]
      have := ih 0
      by_cases hx : p x <;> by_cases ha : p a <;> simp [hx, ha] <;> omega
    | succ i =>
      simp only [List.set, List.countP_cons]
      have := ih i
      omega

/-- Each exit of `map_put`'s probe loop changes the occupied-slot count by at
most one, never changes the table length or size, and returns 0 or 1. -/
lemma map_put_loop_occ [Inhabited V] (m : Map V) (key : Nat) (elt : V) :
    ∀ rem idx, occupiedCount (map_put_loop m key elt idx rem).1 ≤ occupiedCount m + 1 ∧
      (map_put_loop m key elt idx rem).1.size = m.size := by
  intro rem
  induction rem with
  | zero =>
    intro idx
    simp only [map_put_loop]
    split_ifs
    · exact ⟨countP_set_le _ _ _ _, rfl⟩
    · exact ⟨countP_set_le _ _ _ _, rfl⟩
    · exact ⟨by dsimp only; omega, rfl⟩
  | succ rem ih =>
    intro idx
    simp only [map_put_loop]
    split_ifs
    · exact ⟨countP_set_le _ _ _ _, rfl⟩
    · exact ⟨countP_set_le _ _ _ _, rfl⟩
    · exact ih (nextIdx m idx)

/-!
# Claim C3
-/

/-- The trace refuting claim C3: 39 `map_put` calls with the distinct keys
0..38 on a fresh table, each checked to have returned 1; the accumulated map
is paired with a flag recording that every call succeeded. -/
def c3Run : Map Nat × Bool :=
  (List.range 39).foldl
    (fun acc k =>
      match map_put acc.1 k k with
      | some (m', r) => (m', acc.2 && decide (r = 1))
      | none => (acc.1, false))
    (map_create Nat, true)

set_option maxRecDepth 40000 in
/-- Claim C3, counterexample: after 39 successful puts the table still has
length 64 (no resize was triggered: the load check runs before the insertion
and saw at most 38 entries), so 39 of 64 slots are Occupied-or-Tombstone —
a load factor of 60.9%, exceeding the claimed 60% bound. -/
theorem c3_counterexample_load_exceeds_60_percent :
    c3Run.2 = true ∧ c3Run.1.size = 64 ∧ residentCount c3Run.1 = 39 ∧
    MAP_MAX_LOAD * c3Run.1.size < residentCount c3Run.1 * 100 := by
  refine ⟨rfl, rfl, rfl, by decide⟩

/-- Claim C3 (amended): the load check `_load_ok` bounds only the `count`
field — the number of Occupied slots, not Occupied-plus-Tombstone — and only
before the insertion.  Hence after a `map_put` that passed the load check
(`count * 100 / size < 60` at entry) and returned 1, the occupied count obeys
`occupied * 100 < 60 * size + 100`, i.e. the integer-percent load is at most
60; it can exceed the real 60% line by the one inserted entry (39/64 above),
and the Occupied-plus-Tombstone fraction is not bounded by the check at all. -/
theorem c3_load_check_bounds_occupied_before_insert [Inhabited V] (m : Map V)
    (key : Nat) (elt : V) (m' : Map V)
    (hsz : 0 < m.size)
    (hcount : m.count = occupiedCount m)
    (hload : load_ok m)
    (hput : map_put m key elt = some (m', 1)) :
    occupiedCount m' * 100 < 60 * m'.size + 100 := by
  simp only [map_put, map_putF] at hput
  rw [if_pos hload] at hput
  have hloop : map_put_loop m key elt (startIdx m key) (m.size - 1) = (m', 1) :=
    Option.some.inj hput
  have hocc := map_put_loop_occ m key elt (m.size - 1) (startIdx m key)
  rw [hloop] at hocc
  have hlt : m.count * 100 < MAP_MAX_LOAD * m.size :=
    (Nat.div_lt_iff_lt_mul hsz).mp hload
  rw [show MAP_MAX_LOAD = 60 from rfl] at hlt
  have h1 : occupiedCount m' ≤ occupiedCount m + 1 := hocc.1
  have h2 : m'.size = m.size := hocc.2
  omega

/-- Claim C3 witness: the amended theorem applied to one concrete put of key
5 into a fresh table. -/
theorem c3_load_check_witness :
    occupiedCount (((map_put (map_create Nat) 5 9).getD default).1) * 100 <
      60 * (((map_put (map_create Nat) 5 9).getD default).1).size + 100 := by
  exact c3_load_check_bounds_occupied_before_insert (map_create Nat) 5 9
    (((map_put (map_create Nat) 5 9).getD default).1)
    (by norm_num [map_create, MAP_START_SIZE]) (by decide) (by decide) rfl

/-!
# Claim C1

The keys 0 and 1 both hash to the home slot 0 of a fresh 64-bucket table
(`map_hash_u32 0 % 64 = map_hash_u32 1 % 64 = 0`), which makes the
duplicate-entry behaviour of `map_put` observable with a six-call trace.
-/

/-- After `put 0 ↦ 100`: key 0 Occupied at slot 0. -/
def c1m1 : Map Nat := ((map_put (map_create Nat) 0 100).getD default).1

/-- After `put 1 ↦ 111`: slot 0 is taken by key 0, so key 1 lands at slot 1. -/
def c1m2 : Map Nat := ((map_put c1m1 1 111).getD default).1

/-- After `remove 0`: slot 0 becomes a Tombstone. -/
def c1m3 : Map Nat := (map_remove c1m2 0).1

/-- After `put 1 ↦ 222`: the probe for key 1 stops at the slot-0 Tombstone
(`key == MAP_EMPTY_KEY`) and inserts there WITHOUT noticing that key 1 is
already resident at slot 1 — the table now holds key 1 twice. -/
def c1m4 : Map Nat := ((map_put c1m3 1 222).getD default).1

/-- After `remove 1`: the probe finds the newer copy at slot 0 and tombstones
it; the stale copy `1 ↦ 111` at slot 1 survives. -/
def c1m5 : Map Nat := (map_remove c1m4 1).1

/-- Claim C1, counterexample: every call of the trace
`put 0 100; put 1 111; remove 0; put 1 222; remove 1` succeeds, yet the final
`get 1` reports FOUND with the stale value 111, while the reference
associative-array model maps the same call sequence to not-found.  The trace
also refutes the "put upserts past a Tombstone" clause directly: the fourth
call inserted a second entry for key 1 instead of overwriting the resident
one. -/
theorem c1_counterexample_stale_value_after_remove :
    (map_put (map_create Nat) 0 100).map Prod.snd = some 1 ∧
    (map_put c1m1 1 111).map Prod.snd = some 1 ∧
    (map_remove c1m2 0).2 = 1 ∧
    (map_put c1m3 1 222).map Prod.snd = some 1 ∧
    (map_remove c1m4 1).2 = 1 ∧
    occupiedCount c1m4 = 2 ∧
    (bucketAt c1m4 0).key = 1 ∧ (bucketAt c1m4 1).key = 1 ∧
    (bucketAt c1m4 0).state = BucketState.occupied ∧
    (bucketAt c1m4 1).state = BucketState.occupied ∧
    map_get c1m5 1 c1m5.size = some (1, some 111) ∧
    refGet (refRemove (refPut (refRemove (refPut (refPut ([] : List (Nat × Nat)) 0 100)
      1 111) 0) 1 222) 1) 1 = none := by
  exact ⟨rfl, rfl, rfl, rfl, rfl, rfl, rfl, rfl, rfl, rfl, rfl, rfl⟩

/-- If the probe chain for `key` consists of Occupied buckets with other
(non-reserved) keys for `j` steps and hits an Occupied bucket holding `key`
at step `j`, the put loop overwrites that bucket's payload in place. -/
lemma map_put_loop_hit_aux [Inhabited V] (m : Map V) (key : Nat) (elt : V) (e : Nat)
    (hsz : m.size = 2 ^ e) :
    ∀ j t rem,
      (∀ u, u < j → (bucketAt m (probeIdx m key (t + u))).state = BucketState.occupied ∧
          (bucketAt m (probeIdx m key (t + u))).key ≠ key ∧
          (bucketAt m (probeIdx m key (t + u))).key ≠ MAP_EMPTY_KEY) →
      (bucketAt m (probeIdx m key (t + j))).state = BucketState.occupied →
      (bucketAt m (probeIdx m key (t + j))).key = key →
      j ≤ rem →
      map_put_loop m key elt (probeIdx m key t) rem =
        ({ m with table := (m.table.set (probeIdx m key (t + j))
          { bucketAt m (probeIdx m key (t + j)) with data := elt }) }, 1) := by
  intro j
  induction j with
  | zero =>
    intro t rem hbefore hhs hhk hle
    rw [Nat.add_zero] at hhs hhk ⊢
    cases rem <;> (simp only [map_put_loop]; rw [if_pos ⟨hhs, hhk⟩])
  | succ j ih =>
    intro t rem hbefore hhs hhk hle
    have h0 := hbefore 0 (Nat.succ_pos j)
    rw [Nat.add_zero] at h0
    obtain ⟨rem', rfl⟩ : ∃ rem', rem = rem' + 1 := ⟨rem - 1, by omega⟩
    simp only [map_put_loop]
    rw [if_neg (by intro hc; exact h0.2.1 hc.2), if_neg h0.2.2]
    show map_put_loop m key elt (nextIdx m (probeIdx m key t)) rem' = _
    rw [nextIdx_eq_mod m e _ hsz, ← probeIdx_succ]
    have harg : t + (j + 1) = t + 1 + j := by omega
    rw [harg] at hhs hhk ⊢
    exact ih (t + 1) rem'
      (fun u hu => by
        have h := hbefore (u + 1) (by omega)
        rwa [show t + (u + 1) = t + 1 + u by omega] at h)
      hhs hhk (by omega)

/-- Claim C1 (amended): `map_put` upserts — overwrites the resident value in
place, inserting no second entry and leaving `count` untouched — precisely
when every slot strictly before the resident key in its probe chain is
Occupied by a different, non-reserved key.  When a Tombstone (or any
`MAP_EMPTY_KEY` slot) precedes the resident key, the probe loop's second
branch fires first and inserts a duplicate entry instead, after which the
observable state can diverge from the reference associative-array model
(counterexample above: a later remove-then-get resurrects the stale value). -/
theorem c1_put_upserts_when_chain_occupied [Inhabited V] (m : Map V) (key : Nat)
    (elt : V) (e j : Nat)
    (hsz : m.size = 2 ^ e)
    (hload : load_ok m)
    (hj : j < m.size)
    (hbefore : ∀ t, t < j → (bucketAt m (probeIdx m key t)).state = BucketState.occupied ∧
        (bucketAt m (probeIdx m key t)).key ≠ key ∧
        (bucketAt m (probeIdx m key t)).key ≠ MAP_EMPTY_KEY)
    (hhs : (bucketAt m (probeIdx m key j)).state = BucketState.occupied)
    (hhk : (bucketAt m (probeIdx m key j)).key = key) :
    map_put m key elt =
      some ({ m with table := (m.table.set (probeIdx m key j)
        { bucketAt m (probeIdx m key j) with data := elt }) }, 1) := by
  have hpos : 0 < m.size := by rw [hsz]; positivity
  simp only [map_put, map_putF]
  rw [if_pos hload]
  have haux := map_put_loop_hit_aux m key elt e hsz j 0 (m.size - 1)
    (fun u hu => by simpa using hbefore u hu)
    (by simpa using hhs) (by simpa using hhk) (by omega)
  rw [probeIdx_zero m key hpos] at haux
  rw [haux]
  simp

/-- Claim C1 witness: the amended upsert theorem applied to the table holding
`0 ↦ 100` at its home slot (probe length 0), overwritten with 77. -/
theorem c1_put_upserts_witness :
    map_put c1m1 0 77 =
      some ({ c1m1 with table := (c1m1.table.set (probeIdx c1m1 0 0)
        { bucketAt c1m1 (probeIdx c1m1 0 0) with data := 77 }) }, 1) := by
  exact c1_put_upserts_when_chain_occupied c1m1 0 77 6 0 (by decide) (by decide)
    (by decide) (fun t ht => absurd ht (Nat.not_lt_zero t)) (by decide) (by decide)

/-!
# Claim C9
-/

/-- If the probe chain holds non-matching, non-Empty buckets for `j` steps
and the bucket at step `j` stores the probed key, `map_get`'s loop stops
there and reports found with that bucket's payload. -/
lemma map_get_loop_hit_aux [Inhabited V] (m : Map V) (key : Nat) (e : Nat)
    (hsz : m.size = 2 ^ e) :
    ∀ j t fuel,
      (∀ u, u < j → (bucketAt m (probeIdx m key (t + u))).key ≠ key ∧
          (bucketAt m (probeIdx m key (t + u))).state ≠ BucketState.empty) →
      (bucketAt m (probeIdx m key (t + j))).key = key →
      j < fuel →
      map_get_loop m key (probeIdx m key t) fuel =
        some (1, some (bucketAt m (probeIdx m key (t + j))).data) := by
  intro j
  induction j with
  | zero =>
    intro t fuel hbefore hhk hfuel
    rw [Nat.add_zero] at hhk ⊢
    obtain ⟨f, rfl⟩ : ∃ f, fuel = f + 1 := ⟨fuel - 1, by omega⟩
    simp only [map_get_loop]
    rw [if_pos hhk]
  | succ j ih =>
    intro t fuel hbefore hhk hfuel
    have h0 := hbefore 0 (Nat.succ_pos j)
    rw [Nat.add_zero] at h0
    obtain ⟨f, rfl⟩ : ∃ f, fuel = f + 1 := ⟨fuel - 1, by omega⟩
    simp only [map_get_loop]
    rw [if_neg h0.1, if_neg h0.2]
    show map_get_loop m key (nextIdx m (probeIdx m key t)) f = _
    rw [nextIdx_eq_mod m e _ hsz, ← probeIdx_succ]
    have harg : t + (j + 1) = t + 1 + j := by omega
    rw [harg] at hhk ⊢
    exact ih (t + 1) f
      (fun u hu => by
        have h := hbefore (u + 1) (by omega)
        rwa [show t + (u + 1) = t + 1 + u by omega] at h)
      hhk (by omega)

/-- Claim C9: `map_get` never rejects the reserved key `MAP_EMPTY_KEY` at the
public interface; probing for it, the loop reports FOUND (returns 1) at the
first probe-sequence bucket that stores key `MAP_EMPTY_KEY` — in particular
at the first Empty or Tombstone bucket, both of which store that key — and
copies that bucket's possibly uninitialized payload to the caller. -/
theorem c9_get_reserved_key_reports_found [Inhabited V] (m : Map V) (e j fuel : Nat)
    (hsz : m.size = 2 ^ e)
    (hbefore : ∀ t, t < j →
        (bucketAt m (probeIdx m MAP_EMPTY_KEY t)).key ≠ MAP_EMPTY_KEY ∧
        (bucketAt m (probeIdx m MAP_EMPTY_KEY t)).state ≠ BucketState.empty)
    (hhk : (bucketAt m (probeIdx m MAP_EMPTY_KEY j)).key = MAP_EMPTY_KEY)
    (hjs : (bucketAt m (probeIdx m MAP_EMPTY_KEY j)).state = BucketState.empty ∨
        (bucketAt m (probeIdx m MAP_EMPTY_KEY j)).state = BucketState.removed)
    (hfuel : j < fuel) :
    map_get m MAP_EMPTY_KEY fuel =
      some (1, some (bucketAt m (probeIdx m MAP_EMPTY_KEY j)).data) := by
  have hpos : 0 < m.size := by rw [hsz]; positivity
  unfold map_get
  rw [← probeIdx_zero m MAP_EMPTY_KEY hpos]
  have haux := map_get_loop_hit_aux m MAP_EMPTY_KEY e hsz j 0 fuel
    (fun u hu => by simpa using hbefore u hu) (by simpa using hhk) hfuel
  rwa [Nat.zero_add] at haux

/-- Claim C9 witness: on a freshly created table the very first probe bucket
for the reserved key is Empty, stores `MAP_EMPTY_KEY`, and `map_get` reports
found with its (uninitialized, `default`) payload after a single probe. -/
theorem c9_get_reserved_key_witness :
    map_get (map_create Nat) MAP_EMPTY_KEY 1 =
      some (1, some (bucketAt (map_create Nat)
        (probeIdx (map_create Nat) MAP_EMPTY_KEY 0)).data) := by
  exact c9_get_reserved_key_reports_found (map_create Nat) 6 0 1 (by decide)
    (fun t ht => absurd ht (Nat.not_lt_zero t)) (by decide) (Or.inl (by decide))
    (by decide)

/-!
# Claim C10
-/

/-- When no bucket matches the key and none carries the reserved empty key,
`map_put`'s probe loop performs its bounded full scan and gives up with 0,
leaving the map unchanged. -/
lemma map_put_loop_full_scan [Inhabited V] (m : Map V) (key : Nat) (elt : V) (e : Nat)
    (hsz : m.size = 2 ^ e) (hlen : m.table.length = m.size)
    (hmiss : ∀ b ∈ m.table, ¬(b.state = BucketState.occupied ∧ b.key = key) ∧
        b.key ≠ MAP_EMPTY_KEY) :
    ∀ rem idx, idx < m.size → map_put_loop m key elt idx rem = (m, 0) := by
  intro rem
  induction rem with
  | zero =>
    intro idx hidx
    have hb := hmiss (bucketAt m idx) (bucketAt_mem m idx hlen hidx)
    simp only [map_put_loop]
    rw [if_neg hb.1, if_neg hb.2]
  | succ rem ih =>
    intro idx hidx
    have hb := hmiss (bucketAt m idx) (bucketAt_mem m idx hlen hidx)
    simp only [map_put_loop]
    rw [if_neg hb.1, if_neg hb.2]
    exact ih (nextIdx m idx)
      (by rw [nextIdx_eq_mod m e idx hsz]; exact Nat.mod_lt _ (by rw [hsz]; positivity))

/-- When no bucket is Empty and none is Occupied with the key, `map_remove`'s
probe loop performs its bounded full scan and gives up with 0. -/
lemma map_remove_loop_full_scan [Inhabited V] (m : Map V) (key : Nat) (e : Nat)
    (hsz : m.size = 2 ^ e) (hlen : m.table.length = m.size)
    (hmiss : ∀ b ∈ m.table, b.state ≠ BucketState.empty ∧
        ¬(b.state = BucketState.occupied ∧ b.key = key)) :
    ∀ rem idx, idx < m.size → map_remove_loop m key idx rem = (m, 0) := by
  intro rem
  induction rem with
  | zero =>
    intro idx hidx
    have hb := hmiss (bucketAt m idx) (bucketAt_mem m idx hlen hidx)
    simp only [map_remove_loop]
    rw [if_neg hb.1, if_neg hb.2]
  | succ rem ih =>
    intro idx hidx
    have hb := hmiss (bucketAt m idx) (bucketAt_mem m idx hlen hidx)
    simp only [map_remove_loop]
    rw [if_neg hb.1, if_neg hb.2]
    exact ih (nextIdx m idx)
      (by rw [nextIdx_eq_mod m e idx hsz]; exact Nat.mod_lt _ (by rw [hsz]; positivity))

/-- When no bucket stores the key and none is Empty, `map_get`'s loop makes
no progress within any probe budget: the C loop runs forever. -/
lemma map_get_loop_diverges [Inhabited V] (m : Map V) (key : Nat) (e : Nat)
    (hsz : m.size = 2 ^ e) (hlen : m.table.length = m.size)
    (hmiss : ∀ b ∈ m.table, b.key ≠ key ∧ b.state ≠ BucketState.empty) :
    ∀ fuel idx, idx < m.size → map_get_loop m key idx fuel = none := by
  intro fuel
  induction fuel with
  | zero => intro idx _; rfl
  | succ fuel ih =>
    intro idx hidx
    have hb := hmiss (bucketAt m idx) (bucketAt_mem m idx hlen hidx)
    simp only [map_get_loop]
    rw [if_neg hb.1, if_neg hb.2]
    exact ih (nextIdx m idx)
      (by rw [nextIdx_eq_mod m e idx hsz]; exact Nat.mod_lt _ (by rw [hsz]; positivity))

/-- If some probe position `j` holds the key or an Empty bucket, `map_get`'s
loop returns within `j + 1` probes. -/
lemma map_get_loop_stops [Inhabited V] (m : Map V) (key : Nat) (e : Nat)
    (hsz : m.size = 2 ^ e) :
    ∀ j t fuel, j < fuel →
      ((bucketAt m (probeIdx m key (t + j))).key = key ∨
        (bucketAt m (probeIdx m key (t + j))).state = BucketState.empty) →
      map_get_loop m key (probeIdx m key t) fuel ≠ none := by
  intro j
  induction j with
  | zero =>
    intro t fuel hfuel htrig
    obtain ⟨f, rfl⟩ : ∃ f, fuel = f + 1 := ⟨fuel - 1, by omega⟩
    rw [Nat.add_zero] at htrig
    simp only [map_get_loop]
    by_cases hk : (bucketAt m (probeIdx m key t)).key = key
    · rw [if_pos hk]; simp
    · rw [if_neg hk, if_pos (htrig.resolve_left hk)]; simp
  | succ j ih =>
    intro t fuel hfuel htrig
    obtain ⟨f, rfl⟩ : ∃ f, fuel = f + 1 := ⟨fuel - 1, by omega⟩
    simp only [map_get_loop]
    by_cases hk : (bucketAt m (probeIdx m key t)).key = key
    · rw [if_pos hk]; simp
    · rw [if_neg hk]
      by_cases hs : (bucketAt m (probeIdx m key t)).state = BucketState.empty
      · rw [if_pos hs]; simp
      · rw [if_neg hs]
        show map_get_loop m key (nextIdx m (probeIdx m key t)) f ≠ none
        rw [nextIdx_eq_mod m e _ hsz, ← probeIdx_succ]
        have harg : t + (j + 1) = t + 1 + j := by omega
        rw [harg] at htrig
        exact ih (t + 1) f (by omega) htrig

/-- Claim C10: termination behaviour of the table operations.  (1) `map_put`
carries an explicit probe counter and, when no bucket matches the key and no
bucket exposes the reserved empty key (and the load check passes, so no
resize intervenes), returns 0 with the map unchanged after its bounded full
scan of at most table-length slots; (2) `map_remove` likewise; (3) `map_get`
has no probe counter: when no bucket stores the key and none is Empty, it
returns within NO probe budget whatsoever — the C loop runs forever; (4) it
does terminate, within table-length probes, as soon as some probe position
holds the key or an Empty (not merely Tombstone) bucket. -/
theorem c10_probe_bounds_and_get_partiality (V : Type) [Inhabited V] :
    (∀ (m : Map V) (key : Nat) (elt : V) (e : Nat),
        m.size = 2 ^ e → m.table.length = m.size → load_ok m →
        (∀ b ∈ m.table, ¬(b.state = BucketState.occupied ∧ b.key = key) ∧
          b.key ≠ MAP_EMPTY_KEY) →
        map_put m key elt = some (m, 0)) ∧
    (∀ (m : Map V) (key e : Nat),
        m.size = 2 ^ e → m.table.length = m.size →
        (∀ b ∈ m.table, b.state ≠ BucketState.empty ∧
          ¬(b.state = BucketState.occupied ∧ b.key = key)) →
        map_remove m key = (m, 0)) ∧
    (∀ (m : Map V) (key e : Nat),
        m.size = 2 ^ e → m.table.length = m.size →
        (∀ b ∈ m.table, b.key ≠ key ∧ b.state ≠ BucketState.empty) →
        ∀ fuel, map_get m key fuel = none) ∧
    (∀ (m : Map V) (key e j : Nat),
        m.size = 2 ^ e → j < m.size →
        ((bucketAt m (probeIdx m key j)).key = key ∨
          (bucketAt m (probeIdx m key j)).state = BucketState.empty) →
        map_get m key m.size ≠ none) := by
  refine ⟨?_, ?_, ?_, ?_⟩
  · intro m key elt e hsz hlen hload hmiss
    have hpos : 0 < m.size := by rw [hsz]; positivity
    simp only [map_put, map_putF]
    rw [if_pos hload,
      map_put_loop_full_scan m key elt e hsz hlen hmiss (m.size - 1) (startIdx m key)
        (startIdx_lt m key hpos)]
  · intro m key e hsz hlen hmiss
    have hpos : 0 < m.size := by rw [hsz]; positivity
    unfold map_remove
    exact map_remove_loop_full_scan m key e hsz hlen hmiss (m.size - 1) (startIdx m key)
      (startIdx_lt m key hpos)
  · intro m key e hsz hlen hmiss fuel
    have hpos : 0 < m.size := by rw [hsz]; positivity
    unfold map_get
    exact map_get_loop_diverges m key e hsz hlen hmiss fuel (startIdx m key)
      (startIdx_lt m key hpos)
  · intro m key e j hsz hj htrig
    have hpos : 0 < m.size := by rw [hsz]; positivity
    unfold map_get
    rw [← probeIdx_zero m key hpos]
    exact map_get_loop_stops m key e hsz j 0 m.size hj (by simpa using htrig)

/-- An artificial table exercising the full-scan paths: 4 buckets, all
Occupied with key 5; its `count` field says 0, so the load check passes and
no resize intervenes. -/
def c10FullMap : Map Nat :=
  { size := 4, count := 0,
    table := List.replicate 4 { key := 5, state := BucketState.occupied, data := 0 } }

/-- Claim C10 witness: on the all-occupied 4-bucket table, a put and a remove
of the absent key 7 full-scan and return 0 leaving the table unchanged, and a
get of key 7 returns within no budget (here 100 probes); on a fresh table a
get of the absent key 3 terminates at its first probe. -/
theorem c10_probe_bounds_witness :
    map_put c10FullMap 7 9 = some (c10FullMap, 0) ∧
    map_remove c10FullMap 7 = (c10FullMap, 0) ∧
    map_get c10FullMap 7 100 = none ∧
    map_get (map_create Nat) 3 (map_create Nat).size ≠ none := by
  refine ⟨?_, ?_, ?_, ?_⟩
  · exact (c10_probe_bounds_and_get_partiality Nat).1 c10FullMap 7 9 2 rfl rfl
      (by decide) (by decide)
  · exact (c10_probe_bounds_and_get_partiality Nat).2.1 c10FullMap 7 2 rfl rfl
      (by decide)
  · exact (c10_probe_bounds_and_get_partiality Nat).2.2.1 c10FullMap 7 2 rfl rfl
      (by decide) 100
  · exact (c10_probe_bounds_and_get_partiality Nat).2.2.2 (map_create Nat) 3 6 0
      (by decide) (by decide) (Or.inr (by decide))

end SvgAnim
